import Mathlib

/-!
# The cache adapter of `infra/redis.go`

A shallow embedding of `RedisModel.Open`, `Set`, `Get`, `Delete` and `open`.

The adapter is stateless; everything it does is a call into the go-redis client
or into `encoding/json` / `encoding/xml`.  Those collaborators are not part of
the repository, so:

* the remote store and the client library are an explicit `World` that every
  operation threads through (contents of the store, outcome the store gives to
  each command, live client handles and connections, the log of client calls);
* the two encoders / decoders, and the float formatting of `strconv`, are a
  parameter (`Codec`).

Go strings are byte sequences, values of type `any` are `Value`, a `*error`
result is an `Option GoError` (`none` is the nil pointer).
-/

namespace Infra

/-! ## Data model -/

/-- Go `string` (and the content of a `[]byte`): a sequence of bytes. The
adapter never looks inside one, so the elements are left as naturals. -/
abbrev GoString := List Nat

/-- Bytes of an ASCII literal of the source. -/
def ascii (s : String) : GoString := s.toList.map Char.toNat

/-- Source: `JsonRedis = "1"`. -/
def JsonRedis : GoString := ascii "1"

/-- Source: `XmlType = "2"`. -/
def XmlType : GoString := ascii "2"

/-- Source: `SingleType = "3"`. -/
def SingleType : GoString := ascii "3"

/-- Go values of type `any`, by dynamic type. -/
inductive Value where
  /-- the nil interface value -/
  | nil
  /-- a Go `string` -/
  | str (s : GoString)
  /-- a Go `[]byte` -/
  | bytes (b : GoString)
  /-- a Go `int`; the sized signed kinds are written by the client the same way -/
  | int (n : Int)
  /-- a Go unsigned integer -/
  | uint (n : Nat)
  /-- a Go float, by the IEEE 754 bits of its `float64` value -/
  | float (bits : Nat)
  /-- a Go `bool` -/
  | bool (b : Bool)
  /-- a value of a shape the client cannot write (struct, map, slice, ...); time
  values and binary marshalers, which it can write, are left out -/
  | composite (id : Nat)
  deriving DecidableEq, Repr

/-- Error values that come out of the collaborators. -/
inductive LibError where
  /-- the miss the client reports for an absent key, `redis.Nil` -/
  | redisNil
  /-- a failure that leaves no connection behind (dial refused, connection
  lost, credentials refused while the connection is set up) -/
  | store (code : Nat)
  /-- an error reply of the store on a live connection (NOAUTH, READONLY, ...) -/
  | reply (code : Nat)
  /-- go-redis cannot write the argument ("redis: can't marshal ...") -/
  | cantMarshal
  /-- an error of `encoding/json` or `encoding/xml` -/
  | codec (code : Nat)
  deriving DecidableEq, Repr

/-- The `*redis.StatusCmd` a `client.Set` call hands back: the command it was
built from and the error the round trip left in it (`none`: reply `OK`). -/
structure StatusCmd where
  key : GoString
  value : Value
  expiration : Int
  err : Option LibError
  deriving DecidableEq, Repr

/-- The error a `*error` result points to. -/
inductive GoError where
  /-- an error value of a collaborator, returned by address (`&err`) -/
  | lib (e : LibError)
  /-- the error `errors.New(msg)` with a literal message -/
  | new (msg : String)
  /-- the error `errors.New(cmdStatus.String())` -/
  | newStatus (cmd : StatusCmd)
  deriving DecidableEq, Repr

/-- Source: `RedisModel`. -/
structure RedisModel where
  Domain : GoString
  Port : GoString
  Password : GoString
  SecondDuration : Int
  deriving DecidableEq, Repr

/-- Source: `NewRedisConfig`; the default expiry is not copied (Go zero value). -/
def NewRedisConfig (model : RedisModel) : RedisModel :=
  { Domain := model.Domain, Port := model.Port, Password := model.Password, SecondDuration := 0 }

/-! ## The collaborators -/

/-- A call the adapter makes into the client library. -/
inductive Call where
  | newClient (addr password : GoString) (db : Nat)
  | ping
  | set (key : GoString) (value : Value) (expiration : Int)
  | get (key : GoString)
  | del (key : GoString)
  | close
  deriving DecidableEq, Repr

/-- The remote store together with the client library's process-wide state. -/
structure World where
  /-- what a ping gets: `none` when the store is reachable and accepts the credentials -/
  pingErr : Option LibError
  /-- what a write gets: `none` when the store accepts it -/
  setErr : Option LibError
  /-- what a read gets: `none` when the store serves it -/
  getErr : Option LibError
  /-- what a delete gets: `none` when the store serves it -/
  delErr : Option LibError
  /-- the live entries, key and payload; an expired key is an absent key -/
  store : List (GoString × GoString)
  /-- client handles created and not closed -/
  clients : Nat
  /-- network connections currently open -/
  conns : Nat
  /-- the calls made so far, oldest first -/
  log : List Call
  deriving DecidableEq, Repr

/-- A `*redis.Client`: the number of connections its pool holds. -/
structure Client where
  pooled : Nat
  deriving DecidableEq, Repr

/-- The pure library functions behind the adapter: the encoders and decoders of
`encoding/json` and `encoding/xml`, applied to a value of type `any` (marshal)
and to a target of type `*interface{}` (unmarshal), and the float formatting
`strconv.AppendFloat(b, f, 'f', -1, 64)` the client writes a float argument
with. -/
structure Codec where
  jsonMarshal : Value → Except LibError GoString
  jsonUnmarshal : GoString → Except LibError Value
  xmlMarshal : Value → Except LibError GoString
  xmlUnmarshal : GoString → Except LibError Value
  formatFloat : Nat → GoString

/-- The store without `key`. -/
def eraseKey (key : GoString) : List (GoString × GoString) → List (GoString × GoString)
  | [] => []
  | (k, p) :: s => if k = key then eraseKey key s else (k, p) :: eraseKey key s

/-- The payload the store holds under `key`: a store-level raw read. -/
def rawRead : List (GoString × GoString) → GoString → Option GoString
  | [], _ => none
  | (k, p) :: s, key => if k = key then some p else rawRead s key

/-- Decimal rendering of an integer, as go-redis writes integer arguments. -/
def decimal : Int → GoString
  | Int.ofNat m => (Nat.toDigits 10 m).map Char.toNat
  | Int.negSucc m => 45 :: (Nat.toDigits 10 (m + 1)).map Char.toNat

/-- The bytes go-redis writes for a command argument. -/
def appendArg (lib : Codec) : Value → Except LibError GoString
  | Value.nil => Except.ok []
  | Value.str s => Except.ok s
  | Value.bytes b => Except.ok b
  | Value.int n => Except.ok (decimal n)
  | Value.uint n => Except.ok (decimal (Int.ofNat n))
  | Value.float bits => Except.ok (lib.formatFloat bits)
  | Value.bool true => Except.ok (ascii "1")
  | Value.bool false => Except.ok (ascii "0")
  | Value.composite _ => Except.error LibError.cantMarshal

/-- Client library, `redis.NewClient`: a handle with an empty pool; nothing is dialled yet. -/
def newClient (w : World) (addr password : GoString) (db : Nat) : World × Client :=
  ({ w with clients := w.clients + 1, log := w.log ++ [Call.newClient addr password db] },
   { pooled := 0 })

/-- Client library, `client.Ping(ctx).Result()`: the first command dials a
connection. The connection goes back to the pool, open, when the store answers,
with `PONG` or with an error reply; nothing is left when it cannot be set up. -/
def Client.Ping (w : World) (c : Client) : World × Client × Option LibError :=
  let w1 := { w with log := w.log ++ [Call.ping] }
  match w.pingErr with
  | some (LibError.reply code) =>
    if c.pooled = 0 then
      ({ w1 with conns := w1.conns + 1 }, { pooled := 1 }, some (LibError.reply code))
    else (w1, c, some (LibError.reply code))
  | some e => (w1, c, some e)
  | none =>
    if c.pooled = 0 then ({ w1 with conns := w1.conns + 1 }, { pooled := 1 }, none)
    else (w1, c, none)

/-- Client library, `client.Close()`: the handle is gone, and so are the connections of its pool. -/
def Client.Close (w : World) (c : Client) : World :=
  { w with clients := w.clients - 1, conns := w.conns - c.pooled, log := w.log ++ [Call.close] }

/-- Client library, `client.Set(ctx, key, value, expiration)`: always hands back a command
object (never a nil pointer); the store takes the entry when the argument can
be written and the store accepts the write. -/
def Client.Set (lib : Codec) (w : World) (_c : Client) (key : GoString) (value : Value)
    (expiration : Int) : World × Option StatusCmd :=
  let w1 := { w with log := w.log ++ [Call.set key value expiration] }
  match appendArg lib value with
  | Except.error e => (w1, some { key := key, value := value, expiration := expiration, err := some e })
  | Except.ok payload =>
    match w.setErr with
    | some e => (w1, some { key := key, value := value, expiration := expiration, err := some e })
    | none =>
      ({ w1 with store := (key, payload) :: eraseKey key w1.store },
       some { key := key, value := value, expiration := expiration, err := none })

/-- Client library, `client.Get(ctx, key).Result()`: the payload as a Go string, `redis.Nil`
for an absent key. -/
def Client.Get (w : World) (_c : Client) (key : GoString) : World × Except LibError GoString :=
  let w1 := { w with log := w.log ++ [Call.get key] }
  match w.getErr with
  | some e => (w1, Except.error e)
  | none =>
    match rawRead w.store key with
    | none => (w1, Except.error LibError.redisNil)
    | some payload => (w1, Except.ok payload)

/-- Client library, `client.Del(ctx, key).Err()`: removing an absent key is not an error. -/
def Client.Del (w : World) (_c : Client) (key : GoString) : World × Option LibError :=
  let w1 := { w with log := w.log ++ [Call.del key] }
  match w.delErr with
  | some e => (w1, some e)
  | none => ({ w1 with store := eraseKey key w1.store }, none)

/-! ## The adapter -/

/-- Source: `time.Second`, in nanoseconds. -/
def Second : Int := 1000000000

/-- Signed 64-bit wrap-around: the value an `int64` computation leaves. -/
def wrap64 (x : Int) : Int := (x + 2 ^ 63) % 2 ^ 64 - 2 ^ 63

/-- Source: `open`. The client it creates is handed to the caller when the ping
succeeds and is dropped, not closed, when it fails, with whatever connection
its pool holds. -/
def openClient (model : RedisModel) (w : World) : World × Except GoError Client :=
  match newClient w (model.Domain ++ ascii ":" ++ model.Port) model.Password 0 with
  | (w1, client) =>
    match Client.Ping w1 client with
    | (w2, _, some err) => (w2, Except.error (GoError.lib err))
    | (w2, client, none) => (w2, Except.ok client)

/-- Source: `RedisModel.Open`. -/
def RedisModel.Open (r : RedisModel) (w : World) : World × Option GoError :=
  match openClient r w with
  | (w1, Except.error err) => (w1, some err)
  | (w1, Except.ok _) => (w1, none)

/-- Source: `RedisModel.Set`. `duration` is a Go `int`; the expiry is computed
in `int64`. The deferred `client.Close()` runs on every path after the open. -/
def RedisModel.Set (lib : Codec) (r : RedisModel) (w : World) (key redisType : GoString)
    (value : Value) (duration : Int) : World × Option GoError :=
  match openClient r w with
  | (w1, Except.error err) => (w1, some err)
  | (w1, Except.ok client) =>
    let _duration := wrap64 (duration * Second)
    if redisType = JsonRedis then
      match lib.jsonMarshal value with
      | Except.error err => (Client.Close w1 client, some (GoError.lib err))
      | Except.ok jsonResult =>
        match Client.Set lib w1 client key (Value.str jsonResult) _duration with
        | (w2, some cmdStatus) => (Client.Close w2 client, some (GoError.newStatus cmdStatus))
        | (w2, none) => (Client.Close w2 client, none)
    else if redisType = XmlType then
      match lib.xmlMarshal value with
      | Except.error err => (Client.Close w1 client, some (GoError.lib err))
      | Except.ok jsonResult =>
        match Client.Set lib w1 client key (Value.str jsonResult) _duration with
        | (w2, some cmdStatus) => (Client.Close w2 client, some (GoError.newStatus cmdStatus))
        | (w2, none) => (Client.Close w2 client, none)
    else if redisType = SingleType then
      match Client.Set lib w1 client key value _duration with
      | (w2, some cmdStatus) => (Client.Close w2 client, some (GoError.newStatus cmdStatus))
      | (w2, none) => (Client.Close w2 client, none)
    else
      (Client.Close w1 client, some (GoError.new "invalid redis type"))

/-- Source: `RedisModel.Get`. A payload that decodes leaves the `switch` and
reaches the common error below it. -/
def RedisModel.Get (lib : Codec) (r : RedisModel) (w : World) (key redisType : GoString) :
    World × Value × Option GoError :=
  match openClient r w with
  | (w1, Except.error err) => (w1, Value.nil, some err)
  | (w1, Except.ok client) =>
    match Client.Get w1 client key with
    | (w2, Except.error errGet) => (Client.Close w2 client, Value.nil, some (GoError.lib errGet))
    | (w2, Except.ok value) =>
      if redisType = JsonRedis then
        match lib.jsonUnmarshal value with
        | Except.error err => (Client.Close w2 client, Value.nil, some (GoError.lib err))
        | Except.ok _ => (Client.Close w2 client, Value.nil, some (GoError.new "invalid redis type"))
      else if redisType = XmlType then
        match lib.xmlUnmarshal value with
        | Except.error err => (Client.Close w2 client, Value.nil, some (GoError.lib err))
        | Except.ok _ => (Client.Close w2 client, Value.nil, some (GoError.new "invalid redis type"))
      else if redisType = SingleType then
        (Client.Close w2 client, Value.str value, none)
      else
        (Client.Close w2 client, Value.nil, some (GoError.new "invalid redis type"))

/-- Source: `RedisModel.Delete`. -/
def RedisModel.Delete (r : RedisModel) (w : World) (key : GoString) : World × Option GoError :=
  match openClient r w with
  | (w1, Except.error err) => (w1, some err)
  | (w1, Except.ok client) =>
    match Client.Del w1 client key with
    | (w2, some err) => (Client.Close w2 client, some (GoError.lib err))
    | (w2, none) => (Client.Close w2 client, none)

/-! ## Concrete inputs -/

/-- Reads a run of ASCII digits. -/
def parseDigits (ds : GoString) : Option Nat :=
  ds.foldl (fun acc d =>
    match acc with
    | none => none
    | some a => if 48 ≤ d ∧ d ≤ 57 then some (a * 10 + (d - 48)) else none) (some 0)

/-- Magnitude of a JSON integer: `0`, or digits without a leading zero. -/
def jsonDigits (ds : GoString) : Option Nat :=
  match ds with
  | [] => none
  | [48] => some 0
  | 48 :: _ => none
  | _ => parseDigits ds

/-- Sign and magnitude of a JSON number that is an integer (no fraction, no
exponent). -/
def jsonInteger (p : GoString) : Option (Bool × Nat) :=
  match p with
  | 45 :: ds => (jsonDigits ds).map (fun m => (true, m))
  | ds => (jsonDigits ds).map (fun m => (false, m))

/-- Number of binary digits of a positive natural. -/
def bitLength (n : Nat) : Nat := (Nat.toDigits 2 n).length

/-- Bits of the `float64` nearest to the natural `n`, ties to the even
mantissa, as `strconv.ParseFloat` rounds; `none` beyond the `float64` range. -/
def float64OfNat (n : Nat) : Option Nat :=
  if n = 0 then some 0
  else if bitLength n ≤ 53 then
    some ((1022 + bitLength n) * 2 ^ 52 + (n * 2 ^ (53 - bitLength n) - 2 ^ 52))
  else
    let k := bitLength n - 53
    let q := n / 2 ^ k
    let rest := n % 2 ^ k
    let half := 2 ^ (k - 1)
    let q1 := if half < rest ∨ (rest = half ∧ q % 2 = 1) then q + 1 else q
    let m := if q1 = 2 ^ 53 then 2 ^ 52 else q1
    let len := if q1 = 2 ^ 53 then bitLength n + 1 else bitLength n
    if 2046 < 1022 + len then none else some ((1022 + len) * 2 ^ 52 + (m - 2 ^ 52))

/-- The exact decimal expansion of a `float64`, without exponent. -/
def exactDecimal (bits : Nat) : GoString :=
  let ex := bits / 2 ^ 52 % 2048
  let frac := bits % 2 ^ 52
  let sign : GoString := if bits / 2 ^ 63 % 2 = 1 then [45] else []
  if ex = 2047 then
    if frac = 0 then (if bits / 2 ^ 63 % 2 = 1 then ascii "-Inf" else ascii "+Inf")
    else ascii "NaN"
  else
    let m := if ex = 0 then frac else 2 ^ 52 + frac
    let e := if ex = 0 then 1 else ex
    if 1075 ≤ e then sign ++ (Nat.toDigits 10 (m * 2 ^ (e - 1075))).map Char.toNat
    else
      let k := 1075 - e
      let ds := (Nat.toDigits 10 (m * 5 ^ k)).map Char.toNat
      let padded := List.replicate (k + 1 - ds.length) 48 ++ ds
      let whole := padded.take (padded.length - k)
      let part : GoString :=
        ((padded.drop (padded.length - k)).reverse.dropWhile (fun d => d = 48)).reverse
      if part.isEmpty then sign ++ whole else sign ++ whole ++ [46] ++ part

/-- Printable ASCII text that avoids the bytes in `special`. -/
def plainText (special : List Nat) (s : GoString) : Bool :=
  s.all (fun c => decide (32 ≤ c ∧ c ≤ 126 ∧ c ∉ special))

/-- The content of a JSON string literal written without escapes. -/
def jsonString (p : GoString) : Option GoString :=
  match p with
  | 34 :: rest =>
    if rest.getLast? = some 34 ∧ plainText [34, 92] rest.dropLast then some rest.dropLast
    else none
  | _ => none

/-- An ASCII name: a letter, then letters and digits. -/
def asciiName (name : GoString) : Bool :=
  match name with
  | [] => false
  | c :: cs =>
    decide ((65 ≤ c ∧ c ≤ 90) ∨ (97 ≤ c ∧ c ≤ 122))
      && cs.all (fun d => decide ((65 ≤ d ∧ d ≤ 90) ∨ (97 ≤ d ∧ d ≤ 122) ∨ (48 ≤ d ∧ d ≤ 57)))

/-- Recognizes a document `<name>text</name>` with an ASCII name and plain text
inside. -/
def xmlElement (p : GoString) : Bool :=
  match p with
  | 60 :: rest =>
    let name := rest.takeWhile (fun c => decide (c ≠ 62))
    let inner := (rest.dropWhile (fun c => decide (c ≠ 62))).drop 1
    let closing := ascii "</" ++ name ++ ascii ">"
    asciiName name && decide (name.length < rest.length) && closing.isSuffixOf inner
      && plainText [38, 60, 62] (inner.take (inner.length - closing.length))
  | _ => false

/-- A codec for scalar values, used to run the adapter on concrete inputs. What
it accepts, the libraries accept with the same result:

* the JSON text of nil is `null`, of a bool `true` or `false`, of an integer its
  decimal digits, of a plain string the string in quotes; the XML text of an
  `int` is `<int>` around its digits, of a plain string `<string>` around it;
* `null`, `true`, `false` and a quoted plain string decode to nil, the bool and
  the string, and a JSON integer decodes to the nearest `float64`;
* an XML element decoded into an empty interface is skipped and leaves nil;
* a float whose exact decimal expansion has at most 15 significant digits is
  formatted as that expansion.

It refuses every other value or payload. The libraries also refuse a payload
such as `hello` or the empty payload, but take many values and documents that
are refused here; and `strconv` picks the shortest digits that read back where
this one writes a longer expansion out in full. -/
def intCodec : Codec where
  jsonMarshal v :=
    match v with
    | Value.nil => Except.ok (ascii "null")
    | Value.bool true => Except.ok (ascii "true")
    | Value.bool false => Except.ok (ascii "false")
    | Value.int n => Except.ok (decimal n)
    | Value.uint n => Except.ok (decimal (Int.ofNat n))
    | Value.str s =>
      if plainText [34, 38, 60, 62, 92] s then Except.ok ([34] ++ s ++ [34])
      else Except.error (LibError.codec 1)
    | _ => Except.error (LibError.codec 1)
  jsonUnmarshal p :=
    if p = ascii "null" then Except.ok Value.nil
    else if p = ascii "true" then Except.ok (Value.bool true)
    else if p = ascii "false" then Except.ok (Value.bool false)
    else
      match jsonString p with
      | some s => Except.ok (Value.str s)
      | none =>
        match jsonInteger p with
        | none => Except.error (LibError.codec 2)
        | some (negative, m) =>
          match float64OfNat m with
          | none => Except.error (LibError.codec 5)
          | some bits => Except.ok (Value.float (if negative then 2 ^ 63 + bits else bits))
  xmlMarshal v :=
    match v with
    | Value.int n => Except.ok (ascii "<int>" ++ decimal n ++ ascii "</int>")
    | Value.str s =>
      if plainText [34, 38, 39, 60, 62] s then
        Except.ok (ascii "<string>" ++ s ++ ascii "</string>")
      else Except.error (LibError.codec 3)
    | _ => Except.error (LibError.codec 3)
  xmlUnmarshal p :=
    if xmlElement p then Except.ok Value.nil else Except.error (LibError.codec 4)
  formatFloat := exactDecimal

/-- A configuration. -/
def cfg : RedisModel :=
  { Domain := ascii "localhost", Port := ascii "6379", Password := [], SecondDuration := 60 }

/-- A reachable store that serves every command and holds nothing. -/
def emptyWorld : World :=
  { pingErr := none, setErr := none, getErr := none, delErr := none,
    store := [], clients := 0, conns := 0, log := [] }

/-- A reachable store that holds the payload `hello` under `k`. -/
def helloWorld : World :=
  { emptyWorld with store := [(ascii "k", ascii "hello")] }

/-- An unreachable store: the ping fails. -/
def downWorld : World :=
  { emptyWorld with pingErr := some (LibError.store 1) }

/-- A reachable store that holds `hello` under `k` and refuses reads. -/
def refusedReadWorld : World :=
  { helloWorld with getErr := some (LibError.reply 2) }

/-- The world a successful `open` leaves: one more client handle, one more
connection, and the two calls in the log. -/
def opened (r : RedisModel) (w : World) : World :=
  { w with
    clients := w.clients + 1
    conns := w.conns + 1
    log := w.log ++ [Call.newClient (r.Domain ++ ascii ":" ++ r.Port) r.Password 0, Call.ping] }

/-! ## The store as a finite map -/

theorem rawRead_cons_self (key p : GoString) (s : List (GoString × GoString)) :
    rawRead ((key, p) :: s) key = some p := by
  simp [rawRead]

theorem rawRead_eraseKey_self (key : GoString) (s : List (GoString × GoString)) :
    rawRead (eraseKey key s) key = none := by
  induction s with
  | nil => simp [rawRead, eraseKey]
  | cons e s ih =>
    obtain ⟨k, p⟩ := e
    by_cases h : k = key <;> simp [eraseKey, rawRead, h, ih]

theorem rawRead_eraseKey_ne (key k : GoString) (s : List (GoString × GoString)) (hk : k ≠ key) :
    rawRead (eraseKey key s) k = rawRead s k := by
  induction s with
  | nil => simp [rawRead, eraseKey]
  | cons e s ih =>
    obtain ⟨k1, p⟩ := e
    by_cases h : k1 = key
    · have hne : ¬ key = k := fun h2 => hk h2.symm
      subst h
      simp [eraseKey, rawRead, ih, hne]
    · by_cases h2 : k1 = k
      · subst h2
        simp [eraseKey, rawRead, h]
      · simp [eraseKey, rawRead, h, h2, ih]

theorem eraseKey_of_absent (key : GoString) (s : List (GoString × GoString))
    (h : rawRead s key = none) : eraseKey key s = s := by
  induction s with
  | nil => simp [eraseKey]
  | cons e s ih =>
    obtain ⟨k, p⟩ := e
    by_cases he : k = key
    · simp [rawRead, he] at h
    · have hs : rawRead s key = none := by
        simpa [rawRead, he] using h
      simp [eraseKey, he, ih hs]

theorem eraseKey_idem (key : GoString) (s : List (GoString × GoString)) :
    eraseKey key (eraseKey key s) = eraseKey key s :=
  eraseKey_of_absent key _ (rawRead_eraseKey_self key s)

/-! ## Opening a connection -/

theorem openClient_ok (r : RedisModel) (w : World) (h : w.pingErr = none) :
    openClient r w = (opened r w, Except.ok { pooled := 1 }) := by
  simp [openClient, newClient, Client.Ping, opened, h]

theorem openClient_err (r : RedisModel) (w : World) (e : LibError) (h : w.pingErr = some e) :
    (openClient r w).2 = Except.error (GoError.lib e) := by
  cases e <;> simp [openClient, newClient, Client.Ping, h]

theorem tag_literals : JsonRedis = [49] ∧ XmlType = [50] ∧ SingleType = [51] := by
  decide


/-! ## Set -/

/-- C5. With a reachable store, `Set` with a tag other than "1", "2", "3"
fails with the error "invalid redis type", makes no `set` call (the client is
only created, pinged and closed) and leaves the store's contents unchanged. -/
theorem Set_unrecognized_tag (lib : Codec) (r : RedisModel) (w : World)
    (key redisType : GoString) (value : Value) (duration : Int)
    (hping : w.pingErr = none)
    (h1 : redisType ≠ JsonRedis) (h2 : redisType ≠ XmlType) (h3 : redisType ≠ SingleType) :
    (RedisModel.Set lib r w key redisType value duration).2
        = some (GoError.new "invalid redis type")
      ∧ (RedisModel.Set lib r w key redisType value duration).1.store = w.store
      ∧ (RedisModel.Set lib r w key redisType value duration).1.log
          = w.log ++ [Call.newClient (r.Domain ++ ascii ":" ++ r.Port) r.Password 0,
                      Call.ping, Call.close] := by
  simp [RedisModel.Set, openClient_ok r w hping, h1, h2, h3, Client.Close, opened]

theorem Set_unrecognized_tag_witness :
    (RedisModel.Set intCodec cfg helloWorld (ascii "k") (ascii "9") (Value.int 7) 30).2
        = some (GoError.new "invalid redis type")
      ∧ (RedisModel.Set intCodec cfg helloWorld (ascii "k") (ascii "9") (Value.int 7) 30).1.store
          = helloWorld.store
      ∧ (RedisModel.Set intCodec cfg helloWorld (ascii "k") (ascii "9") (Value.int 7) 30).1.log
          = helloWorld.log ++ [Call.newClient (cfg.Domain ++ ascii ":" ++ cfg.Port) cfg.Password 0,
                      Call.ping, Call.close] :=
  Set_unrecognized_tag intCodec cfg helloWorld (ascii "k") (ascii "9") (Value.int 7) 30
    (by decide) (by decide) (by decide) (by decide)

/-! ## Get -/

/-- C6. With a reachable store that serves the read, `Get` on an absent key
returns nil and the miss the client reports (`redis.Nil`), whatever the tag,
recognized or not, and whatever the decoders would do. -/
theorem Get_absent_key (lib : Codec) (r : RedisModel) (w : World) (key redisType : GoString)
    (hping : w.pingErr = none) (hget : w.getErr = none) (habs : rawRead w.store key = none) :
    (RedisModel.Get lib r w key redisType).2 = (Value.nil, some (GoError.lib LibError.redisNil)) := by
  simp [RedisModel.Get, openClient_ok r w hping, Client.Get, opened, hget, habs]

theorem Get_absent_key_witness :
    (RedisModel.Get intCodec cfg helloWorld (ascii "other") SingleType).2
      = (Value.nil, some (GoError.lib LibError.redisNil)) :=
  Get_absent_key intCodec cfg helloWorld (ascii "other") SingleType
    (by decide) (by decide) (by decide)

/-- C4 (as the code has it). `Get` returns without error exactly when the
connection opens, the store serves the read, the key is present and the tag is
"3"; the value is then the stored payload, unchanged, as a string. In every
other case `Get` returns nil together with an error. -/
theorem Get_value_iff (lib : Codec) (r : RedisModel) (w : World) (key redisType : GoString) :
    ((RedisModel.Get lib r w key redisType).2.2 = none ↔
        (w.pingErr = none ∧ w.getErr = none ∧ redisType = SingleType
          ∧ ∃ p, rawRead w.store key = some p))
      ∧ (∀ p, w.pingErr = none → w.getErr = none → redisType = SingleType →
          rawRead w.store key = some p →
          (RedisModel.Get lib r w key redisType).2 = (Value.str p, none))
      ∧ ((RedisModel.Get lib r w key redisType).2.2 ≠ none →
          (RedisModel.Get lib r w key redisType).2.1 = Value.nil) := by
  have hlit := tag_literals
  obtain ⟨hj, hx, hs⟩ := hlit
  cases hping : w.pingErr with
  | some e =>
    have h := openClient_err r w e hping
    have hG : (RedisModel.Get lib r w key redisType).2 = (Value.nil, some (GoError.lib e)) := by
      unfold RedisModel.Get
      split
      · rename_i w1 err heq
        rw [heq] at h
        simp at h
        simp [h]
      · rename_i w1 client heq
        rw [heq] at h
        simp at h
    simp [hG]
  | none =>
    cases hget : w.getErr with
    | some e =>
      simp [RedisModel.Get, openClient_ok r w hping, Client.Get, opened, hget]
    | none =>
      cases hrd : rawRead w.store key with
      | none =>
        simp [RedisModel.Get, openClient_ok r w hping, Client.Get, opened, hget, hrd]
      | some p =>
        by_cases t1 : redisType = JsonRedis
        · have t3 : redisType ≠ SingleType := by rw [t1, hj, hs]; decide
          simp only [RedisModel.Get, openClient_ok r w hping, Client.Get, opened, hget, hrd, t1]
          cases lib.jsonUnmarshal p <;> simp [hj, hs]
        · by_cases t2 : redisType = XmlType
          · have t3 : redisType ≠ SingleType := by rw [t2, hx, hs]; decide
            simp only [RedisModel.Get, openClient_ok r w hping, Client.Get, opened, hget, hrd, t2]
            cases lib.xmlUnmarshal p <;> simp [hj, hx, hs]
          · by_cases t3 : redisType = SingleType
            · simp [RedisModel.Get, openClient_ok r w hping, Client.Get, opened, hget, hrd, t1, t2, t3]
              simp [← t3, t1, t2]
            · simp [RedisModel.Get, openClient_ok r w hping, Client.Get, opened, hget, hrd, t1, t2, t3]


/-- C4, counterexample. The connection opens, the key `k` is present and the tag
is "3", but the store refuses the read: `Get` returns nil and the store's
error. -/
theorem Get_refused_read :
    refusedReadWorld.pingErr = none
      ∧ rawRead refusedReadWorld.store (ascii "k") = some (ascii "hello")
      ∧ (RedisModel.Get intCodec cfg refusedReadWorld (ascii "k") SingleType).2
          = (Value.nil, some (GoError.lib (LibError.reply 2))) := by
  decide

/-- C3 (as the code has it). With a reachable store that serves the read and a
key present with payload `p`: under tag "1" (resp. "2"), `Get` returns nil with
the error "invalid redis type" when `p` decodes as JSON (resp. XML), the decoded
value being dropped; when `p` does not decode, `Get` returns nil with the
decoder's own error. -/
theorem Get_encoded_tags (lib : Codec) (r : RedisModel) (w : World) (key p : GoString)
    (hping : w.pingErr = none) (hget : w.getErr = none) (hpres : rawRead w.store key = some p) :
    (∀ v, lib.jsonUnmarshal p = Except.ok v →
        (RedisModel.Get lib r w key JsonRedis).2
          = (Value.nil, some (GoError.new "invalid redis type")))
      ∧ (∀ e, lib.jsonUnmarshal p = Except.error e →
        (RedisModel.Get lib r w key JsonRedis).2 = (Value.nil, some (GoError.lib e)))
      ∧ (∀ v, lib.xmlUnmarshal p = Except.ok v →
        (RedisModel.Get lib r w key XmlType).2
          = (Value.nil, some (GoError.new "invalid redis type")))
      ∧ (∀ e, lib.xmlUnmarshal p = Except.error e →
        (RedisModel.Get lib r w key XmlType).2 = (Value.nil, some (GoError.lib e))) := by
  have hne : XmlType ≠ JsonRedis := by decide
  refine ⟨?_, ?_, ?_, ?_⟩ <;> intro x hx <;>
    simp [RedisModel.Get, openClient_ok r w hping, Client.Get, opened, hget, hpres, hx, hne]

theorem Get_encoded_tags_witness :
    (∀ v, intCodec.jsonUnmarshal (ascii "hello") = Except.ok v →
        (RedisModel.Get intCodec cfg helloWorld (ascii "k") JsonRedis).2
          = (Value.nil, some (GoError.new "invalid redis type")))
      ∧ (∀ e, intCodec.jsonUnmarshal (ascii "hello") = Except.error e →
        (RedisModel.Get intCodec cfg helloWorld (ascii "k") JsonRedis).2
          = (Value.nil, some (GoError.lib e)))
      ∧ (∀ v, intCodec.xmlUnmarshal (ascii "hello") = Except.ok v →
        (RedisModel.Get intCodec cfg helloWorld (ascii "k") XmlType).2
          = (Value.nil, some (GoError.new "invalid redis type")))
      ∧ (∀ e, intCodec.xmlUnmarshal (ascii "hello") = Except.error e →
        (RedisModel.Get intCodec cfg helloWorld (ascii "k") XmlType).2
          = (Value.nil, some (GoError.lib e))) :=
  Get_encoded_tags intCodec cfg helloWorld (ascii "k") (ascii "hello")
    (by decide) (by decide) (by decide)

/-- C3, counterexample. The store holds `hello` under `k`, which is neither a
JSON nor an XML document: `Get` under tag "1" and under tag "2" hands the
decoder's error to the caller, not "invalid redis type". -/
theorem Get_encoded_tags_decode_error :
    (RedisModel.Get intCodec cfg helloWorld (ascii "k") JsonRedis).2
        = (Value.nil, some (GoError.lib (LibError.codec 2)))
      ∧ (RedisModel.Get intCodec cfg helloWorld (ascii "k") XmlType).2
        = (Value.nil, some (GoError.lib (LibError.codec 4)))
      ∧ (RedisModel.Get intCodec cfg helloWorld (ascii "k") JsonRedis).2.2
        ≠ some (GoError.new "invalid redis type")
      ∧ (RedisModel.Get intCodec cfg helloWorld (ascii "k") XmlType).2.2
        ≠ some (GoError.new "invalid redis type") := by
  decide

/-! ## Delete -/

/-- C7. With a reachable store that serves the delete, `Delete` succeeds
whether or not the key is present; the store it leaves is the input store
without the key: the key is absent, every other key reads as before, a store
that did not hold the key is unchanged, and a second `Delete` succeeds and
changes nothing. -/
theorem Delete_removes_key (r : RedisModel) (w : World) (key : GoString)
    (hping : w.pingErr = none) (hdel : w.delErr = none) :
    (RedisModel.Delete r w key).2 = none
      ∧ (RedisModel.Delete r w key).1.store = eraseKey key w.store
      ∧ rawRead (RedisModel.Delete r w key).1.store key = none
      ∧ (∀ k, k ≠ key → rawRead (RedisModel.Delete r w key).1.store k = rawRead w.store k)
      ∧ (rawRead w.store key = none → (RedisModel.Delete r w key).1.store = w.store)
      ∧ (RedisModel.Delete r (RedisModel.Delete r w key).1 key).2 = none
      ∧ (RedisModel.Delete r (RedisModel.Delete r w key).1 key).1.store
          = (RedisModel.Delete r w key).1.store := by
  have hD : ∀ w0 : World, w0.pingErr = none → w0.delErr = none →
      RedisModel.Delete r w0 key
        = (Client.Close { opened r w0 with
              log := (opened r w0).log ++ [Call.del key]
              store := eraseKey key w0.store } { pooled := 1 }, none) := by
    intro w0 h1 h2
    simp [RedisModel.Delete, openClient_ok r w0 h1, Client.Del, opened, h2]
  have h1 := hD w hping hdel
  have h2 := hD (RedisModel.Delete r w key).1 (by simp [h1, Client.Close, opened, hping])
    (by simp [h1, Client.Close, opened, hdel])
  have hs : (RedisModel.Delete r w key).1.store = eraseKey key w.store := by
    simp [h1, Client.Close, opened]
  refine ⟨by simp [h1], hs, ?_, ?_, ?_, by simp [h2], ?_⟩
  · rw [hs]; exact rawRead_eraseKey_self key w.store
  · intro k hk; rw [hs]; exact rawRead_eraseKey_ne key k w.store hk
  · intro habs; rw [hs]; exact eraseKey_of_absent key w.store habs
  · rw [h2]
    simp only [Client.Close, opened]
    rw [hs]
    exact eraseKey_idem key w.store

theorem Delete_removes_key_witness :
    (RedisModel.Delete cfg helloWorld (ascii "k")).2 = none
      ∧ (RedisModel.Delete cfg helloWorld (ascii "k")).1.store = eraseKey (ascii "k") helloWorld.store
      ∧ rawRead (RedisModel.Delete cfg helloWorld (ascii "k")).1.store (ascii "k") = none
      ∧ (∀ k, k ≠ ascii "k" →
          rawRead (RedisModel.Delete cfg helloWorld (ascii "k")).1.store k = rawRead helloWorld.store k)
      ∧ (rawRead helloWorld.store (ascii "k") = none →
          (RedisModel.Delete cfg helloWorld (ascii "k")).1.store = helloWorld.store)
      ∧ (RedisModel.Delete cfg (RedisModel.Delete cfg helloWorld (ascii "k")).1 (ascii "k")).2 = none
      ∧ (RedisModel.Delete cfg (RedisModel.Delete cfg helloWorld (ascii "k")).1 (ascii "k")).1.store
          = (RedisModel.Delete cfg helloWorld (ascii "k")).1.store :=
  Delete_removes_key cfg helloWorld (ascii "k") (by decide) (by decide)


/-! ## What a write leaves behind -/

theorem wrap64_of_fits (x : Int) (h1 : -9223372036854775808 ≤ x) (h2 : x ≤ 9223372036854775807) :
    wrap64 x = x := by
  unfold wrap64
  have h : (x + 2 ^ 63) % 2 ^ 64 = x + 2 ^ 63 := by
    apply Int.emod_eq_of_lt <;> norm_num <;> omega
  rw [h]
  ring

theorem Set_raw_run (lib : Codec) (r : RedisModel) (w : World) (key payload : GoString)
    (v : Value) (duration : Int)
    (hping : w.pingErr = none) (hset : w.setErr = none)
    (hv : appendArg lib v = Except.ok payload) :
    RedisModel.Set lib r w key SingleType v duration
      = (Client.Close { opened r w with
            log := (opened r w).log ++ [Call.set key v (wrap64 (duration * Second))]
            store := (key, payload) :: eraseKey key w.store } { pooled := 1 },
         some (GoError.newStatus
          { key := key, value := v, expiration := wrap64 (duration * Second), err := none })) := by
  have h1 : SingleType ≠ JsonRedis := by decide
  have h2 : SingleType ≠ XmlType := by decide
  simp [RedisModel.Set, openClient_ok r w hping, Client.Set, opened, hset, hv, h1, h2]

theorem Get_raw_present (lib : Codec) (r : RedisModel) (w : World) (key p : GoString)
    (hping : w.pingErr = none) (hget : w.getErr = none) (hpres : rawRead w.store key = some p) :
    (RedisModel.Get lib r w key SingleType).2 = (Value.str p, none) := by
  have h1 : SingleType ≠ JsonRedis := by decide
  have h2 : SingleType ≠ XmlType := by decide
  simp [RedisModel.Get, openClient_ok r w hping, Client.Get, opened, hget, hpres, h1, h2]

theorem Get_after_Set_raw_payload (lib : Codec) (r : RedisModel) (w : World)
    (key payload : GoString) (v : Value) (duration : Int)
    (hping : w.pingErr = none) (hset : w.setErr = none) (hget : w.getErr = none)
    (hv : appendArg lib v = Except.ok payload) :
    (RedisModel.Get lib r (RedisModel.Set lib r w key SingleType v duration).1 key SingleType).2
      = (Value.str payload, none) := by
  rw [Set_raw_run lib r w key payload v duration hping hset hv]
  apply Get_raw_present
  · simpa [Client.Close, opened] using hping
  · simpa [Client.Close, opened] using hget
  · simp [Client.Close, opened, rawRead]

/-- C2 (as the code has it). With a reachable store that accepts the write and
serves the read, `Get(key, "3")` after `Set(key, "3", v, ttl)` returns without
error the text of `v`, the payload as a string: `v` itself when `v` is a
string, the string with the same bytes when `v` is a byte slice, the decimal
digits when `v` is a signed or an unsigned integer, and the text
`strconv` formats it to when `v` is a float. -/
theorem Get_after_Set_raw (lib : Codec) (r : RedisModel) (w : World) (key : GoString)
    (duration : Int)
    (hping : w.pingErr = none) (hset : w.setErr = none) (hget : w.getErr = none) :
    (∀ s, (RedisModel.Get lib r
            (RedisModel.Set lib r w key SingleType (Value.str s) duration).1 key SingleType).2
          = (Value.str s, none))
      ∧ (∀ b, (RedisModel.Get lib r
            (RedisModel.Set lib r w key SingleType (Value.bytes b) duration).1 key SingleType).2
          = (Value.str b, none))
      ∧ (∀ n, (RedisModel.Get lib r
            (RedisModel.Set lib r w key SingleType (Value.int n) duration).1 key SingleType).2
          = (Value.str (decimal n), none))
      ∧ (∀ n, (RedisModel.Get lib r
            (RedisModel.Set lib r w key SingleType (Value.uint n) duration).1 key SingleType).2
          = (Value.str (decimal (Int.ofNat n)), none))
      ∧ (∀ f, (RedisModel.Get lib r
            (RedisModel.Set lib r w key SingleType (Value.float f) duration).1 key SingleType).2
          = (Value.str (lib.formatFloat f), none)) :=
  ⟨fun s => Get_after_Set_raw_payload lib r w key s (Value.str s) duration hping hset hget rfl,
   fun b => Get_after_Set_raw_payload lib r w key b (Value.bytes b) duration hping hset hget rfl,
   fun n => Get_after_Set_raw_payload lib r w key (decimal n) (Value.int n) duration
      hping hset hget rfl,
   fun n => Get_after_Set_raw_payload lib r w key (decimal (Int.ofNat n)) (Value.uint n) duration
      hping hset hget rfl,
   fun f => Get_after_Set_raw_payload lib r w key (lib.formatFloat f) (Value.float f) duration
      hping hset hget rfl⟩

theorem Get_after_Set_raw_witness :
    (∀ s, (RedisModel.Get intCodec cfg
            (RedisModel.Set intCodec cfg helloWorld (ascii "k") SingleType (Value.str s) 30).1
            (ascii "k") SingleType).2
          = (Value.str s, none))
      ∧ (∀ b, (RedisModel.Get intCodec cfg
            (RedisModel.Set intCodec cfg helloWorld (ascii "k") SingleType (Value.bytes b) 30).1
            (ascii "k") SingleType).2
          = (Value.str b, none))
      ∧ (∀ n, (RedisModel.Get intCodec cfg
            (RedisModel.Set intCodec cfg helloWorld (ascii "k") SingleType (Value.int n) 30).1
            (ascii "k") SingleType).2
          = (Value.str (decimal n), none))
      ∧ (∀ n, (RedisModel.Get intCodec cfg
            (RedisModel.Set intCodec cfg helloWorld (ascii "k") SingleType (Value.uint n) 30).1
            (ascii "k") SingleType).2
          = (Value.str (decimal (Int.ofNat n)), none))
      ∧ (∀ f, (RedisModel.Get intCodec cfg
            (RedisModel.Set intCodec cfg helloWorld (ascii "k") SingleType (Value.float f) 30).1
            (ascii "k") SingleType).2
          = (Value.str (intCodec.formatFloat f), none)) :=
  Get_after_Set_raw intCodec cfg helloWorld (ascii "k") 30 (by decide) (by decide) (by decide)

/-- C2, counterexample. After `Set(k, "3", 42, 30)` the read returns the string
"42", and after `Set(k, "3", []byte{1, 2}, 30)` the string with bytes 1, 2:
neither is the value that was set. -/
theorem Get_after_Set_raw_not_equal :
    (RedisModel.Get intCodec cfg
        (RedisModel.Set intCodec cfg emptyWorld (ascii "k") SingleType (Value.int 42) 30).1
        (ascii "k") SingleType).2 = (Value.str (ascii "42"), none)
      ∧ Value.str (ascii "42") ≠ Value.int 42
      ∧ (RedisModel.Get intCodec cfg
        (RedisModel.Set intCodec cfg emptyWorld (ascii "k") SingleType (Value.bytes [1, 2]) 30).1
        (ascii "k") SingleType).2 = (Value.str [1, 2], none)
      ∧ Value.str [1, 2] ≠ Value.bytes [1, 2] := by
  decide

/-- C9 (as the code has it). For every recognized tag whose encoding succeeds
and every `ttlSeconds`, the one `set` call of `Set` carries the expiry
`ttlSeconds * time.Second` computed in `int64`, whatever the configured default
expiry; for `-9223372036 ≤ ttlSeconds ≤ 9223372036` that is exactly
`ttlSeconds * 10^9` nanoseconds, zero and negative values included. -/
theorem Set_expiry (lib : Codec) (r : RedisModel) (w : World) (key redisType : GoString)
    (v arg : Value) (duration : Int)
    (hping : w.pingErr = none)
    (htag : (redisType = JsonRedis ∧ ∃ b, lib.jsonMarshal v = Except.ok b ∧ arg = Value.str b)
      ∨ (redisType = XmlType ∧ ∃ b, lib.xmlMarshal v = Except.ok b ∧ arg = Value.str b)
      ∨ (redisType = SingleType ∧ arg = v)) :
    (RedisModel.Set lib r w key redisType v duration).1.log
        = w.log ++ [Call.newClient (r.Domain ++ ascii ":" ++ r.Port) r.Password 0, Call.ping,
                    Call.set key arg (wrap64 (duration * Second)), Call.close]
      ∧ (-9223372036 ≤ duration → duration ≤ 9223372036 →
          (RedisModel.Set lib r w key redisType v duration).1.log
            = w.log ++ [Call.newClient (r.Domain ++ ascii ":" ++ r.Port) r.Password 0, Call.ping,
                        Call.set key arg (duration * 1000000000), Call.close]) := by
  have hlog : (RedisModel.Set lib r w key redisType v duration).1.log
        = w.log ++ [Call.newClient (r.Domain ++ ascii ":" ++ r.Port) r.Password 0, Call.ping,
                    Call.set key arg (wrap64 (duration * Second)), Call.close] := by
    have h1 : XmlType ≠ JsonRedis := by decide
    have h2 : SingleType ≠ JsonRedis := by decide
    have h3 : SingleType ≠ XmlType := by decide
    rcases htag with ⟨ht, b, hb, ha⟩ | ⟨ht, b, hb, ha⟩ | ⟨ht, ha⟩
    · subst ht ha
      simp only [RedisModel.Set, openClient_ok r w hping, Client.Set, Client.Close, opened, hb,
        appendArg, if_true]
      cases w.setErr <;> simp
    · subst ht ha
      simp only [RedisModel.Set, openClient_ok r w hping, Client.Set, Client.Close, opened, hb,
        appendArg, h1, if_false, if_true]
      cases w.setErr <;> simp
    · subst ht ha
      simp only [RedisModel.Set, openClient_ok r w hping, Client.Set, Client.Close, opened,
        h2, h3, if_false, if_true]
      cases appendArg lib arg <;> cases w.setErr <;> simp
  refine ⟨hlog, ?_⟩
  intro hlo hhi
  rw [hlog, wrap64_of_fits (duration * Second) (by unfold Second; omega) (by unfold Second; omega)]
  rfl

theorem Set_expiry_witness :
    (RedisModel.Set intCodec cfg helloWorld (ascii "k") SingleType (Value.int 7) (-5)).1.log
        = helloWorld.log ++ [Call.newClient (cfg.Domain ++ ascii ":" ++ cfg.Port) cfg.Password 0,
                    Call.ping,
                    Call.set (ascii "k") (Value.int 7) (wrap64 (-5 * Second)), Call.close]
      ∧ (-9223372036 ≤ (-5 : Int) → (-5 : Int) ≤ 9223372036 →
          (RedisModel.Set intCodec cfg helloWorld (ascii "k") SingleType (Value.int 7) (-5)).1.log
            = helloWorld.log ++ [Call.newClient (cfg.Domain ++ ascii ":" ++ cfg.Port) cfg.Password 0,
                        Call.ping,
                        Call.set (ascii "k") (Value.int 7) (-5 * 1000000000), Call.close]) :=
  Set_expiry intCodec cfg helloWorld (ascii "k") SingleType (Value.int 7) (Value.int 7) (-5)
    (by decide) (Or.inr (Or.inr ⟨rfl, rfl⟩))

/-- C9, counterexample. `ttlSeconds = 9223372037` is a Go `int` on a 64-bit
platform; its product with `time.Second` does not fit `int64`, and the expiry
of the `set` call is the negative duration `-9223372036709551616`, not
9223372037 seconds. -/
theorem Set_expiry_overflow :
    (RedisModel.Set intCodec cfg emptyWorld (ascii "k") SingleType (Value.str (ascii "v"))
        9223372037).1.log
      = [Call.newClient (ascii "localhost:6379") [] 0, Call.ping,
         Call.set (ascii "k") (Value.str (ascii "v")) (-9223372036709551616), Call.close]
      ∧ (-9223372036709551616 : Int) ≠ 9223372037 * 1000000000 := by
  decide

/-! ## The result of a write -/

theorem Client_Set_not_nil (lib : Codec) (w : World) (c : Client) (key : GoString) (v : Value)
    (e : Int) : (Client.Set lib w c key v e).2 ≠ none := by
  unfold Client.Set
  cases appendArg lib v <;> cases w.setErr <;> simp

/-- The result of `Set` is never the nil error: the `*StatusCmd` of `client.Set` is
tested against nil, and the client never hands back nil. -/
theorem Set_returns_error (lib : Codec) (r : RedisModel) (w : World) (key redisType : GoString)
    (v : Value) (duration : Int) :
    (RedisModel.Set lib r w key redisType v duration).2 ≠ none := by
  unfold RedisModel.Set
  split
  · simp
  · rename_i w1 client _
    simp only []
    split_ifs
    · cases lib.jsonMarshal v with
      | error e => simp
      | ok b =>
        simp only []
        split
        · simp
        · rename_i heq
          exact absurd (congrArg Prod.snd heq) (Client_Set_not_nil lib w1 client key _ _)
    · cases lib.xmlMarshal v with
      | error e => simp
      | ok b =>
        simp only []
        split
        · simp
        · rename_i heq
          exact absurd (congrArg Prod.snd heq) (Client_Set_not_nil lib w1 client key _ _)
    · split
      · simp
      · rename_i heq
        exact absurd (congrArg Prod.snd heq) (Client_Set_not_nil lib w1 client key _ _)
    · simp

/-- C1, the code at a failing input. The store is reachable and accepts the
write: under each recognized tag the entry is written, the command carries no
error, and `Set` still returns an error, built from the command's text. -/
theorem Set_accepted_write_returns_error :
    (RedisModel.Set intCodec cfg emptyWorld (ascii "k") SingleType (Value.str (ascii "v")) 30).2
        = some (GoError.newStatus
            { key := ascii "k", value := Value.str (ascii "v"), expiration := 30000000000,
              err := none })
      ∧ rawRead (RedisModel.Set intCodec cfg emptyWorld (ascii "k") SingleType
            (Value.str (ascii "v")) 30).1.store (ascii "k") = some (ascii "v")
      ∧ (RedisModel.Set intCodec cfg emptyWorld (ascii "k") JsonRedis (Value.int 7) 30).2
        = some (GoError.newStatus
            { key := ascii "k", value := Value.str (ascii "7"), expiration := 30000000000,
              err := none })
      ∧ (RedisModel.Set intCodec cfg emptyWorld (ascii "k") XmlType (Value.int 7) 30).2
        = some (GoError.newStatus
            { key := ascii "k", value := Value.str (ascii "<int>7</int>"),
              expiration := 30000000000, err := none }) := by
  decide

/-! ## Connections -/

theorem Client_Set_conns (lib : Codec) (w : World) (c : Client) (key : GoString) (v : Value)
    (e : Int) : (Client.Set lib w c key v e).1.conns = w.conns := by
  unfold Client.Set
  cases appendArg lib v <;> cases w.setErr <;> simp

theorem openClient_unanswered (r : RedisModel) (w : World) (e : LibError)
    (h : w.pingErr = some e) (hreply : ∀ code, e ≠ LibError.reply code) :
    (openClient r w).1.conns = w.conns := by
  cases e with
  | reply code => exact absurd rfl (hreply code)
  | redisNil => simp [openClient, newClient, Client.Ping, h]
  | store code => simp [openClient, newClient, Client.Ping, h]
  | cantMarshal => simp [openClient, newClient, Client.Ping, h]
  | codec code => simp [openClient, newClient, Client.Ping, h]

/-- Once the ping is answered with `PONG`, or no connection could be set up,
`Set` leaves as many connections open as it found. -/
theorem Set_conns (lib : Codec) (r : RedisModel) (w : World) (key redisType : GoString)
    (v : Value) (duration : Int) (hreply : ∀ code, w.pingErr ≠ some (LibError.reply code)) :
    (RedisModel.Set lib r w key redisType v duration).1.conns = w.conns := by
  cases hping : w.pingErr with
  | some e =>
    have h1 := openClient_err r w e hping
    have h2 := openClient_unanswered r w e hping
      (fun code hc => hreply code (by rw [hping, hc]))
    unfold RedisModel.Set
    split
    · rename_i w1 err heq
      rw [heq] at h2
      simpa using h2
    · rename_i w1 client heq
      rw [heq] at h1
      simp at h1
  | none =>
    have hc : ∀ (a : Value) (w2 : World) (res : Option StatusCmd),
        Client.Set lib (opened r w) { pooled := 1 } key a (wrap64 (duration * Second)) = (w2, res) →
        (Client.Close w2 { pooled := 1 }).conns = w.conns := by
      intro a w2 res heq
      have h := Client_Set_conns lib (opened r w) { pooled := 1 } key a (wrap64 (duration * Second))
      rw [heq] at h
      simp only [] at h
      simp [Client.Close, h, opened]
    simp only [RedisModel.Set, openClient_ok r w hping]
    split_ifs
    · cases lib.jsonMarshal v with
      | error e => simp [Client.Close, opened]
      | ok b =>
        simp only []
        split <;> rename_i heq <;> exact hc _ _ _ heq
    · cases lib.xmlMarshal v with
      | error e => simp [Client.Close, opened]
      | ok b =>
        simp only []
        split <;> rename_i heq <;> exact hc _ _ _ heq
    · split <;> rename_i heq <;> exact hc _ _ _ heq
    · simp [Client.Close, opened]

/-- The same for `Get`. -/
theorem Get_conns (lib : Codec) (r : RedisModel) (w : World) (key redisType : GoString)
    (hreply : ∀ code, w.pingErr ≠ some (LibError.reply code)) :
    (RedisModel.Get lib r w key redisType).1.conns = w.conns := by
  cases hping : w.pingErr with
  | some e =>
    have h1 := openClient_err r w e hping
    have h2 := openClient_unanswered r w e hping
      (fun code hc => hreply code (by rw [hping, hc]))
    unfold RedisModel.Get
    split
    · rename_i w1 err heq
      rw [heq] at h2
      simpa using h2
    · rename_i w1 client heq
      rw [heq] at h1
      simp at h1
  | none =>
    cases hget : w.getErr with
    | some e => simp [RedisModel.Get, openClient_ok r w hping, Client.Get, Client.Close, opened, hget]
    | none =>
      cases hrd : rawRead w.store key with
      | none =>
        simp [RedisModel.Get, openClient_ok r w hping, Client.Get, Client.Close, opened, hget, hrd]
      | some p =>
        simp only [RedisModel.Get, openClient_ok r w hping, Client.Get, opened, hget, hrd]
        split_ifs
        · cases lib.jsonUnmarshal p <;> simp [Client.Close]
        · cases lib.xmlUnmarshal p <;> simp [Client.Close]
        · simp [Client.Close]
        · simp [Client.Close]

/-- The same for `Delete`. -/
theorem Delete_conns (r : RedisModel) (w : World) (key : GoString)
    (hreply : ∀ code, w.pingErr ≠ some (LibError.reply code)) :
    (RedisModel.Delete r w key).1.conns = w.conns := by
  cases hping : w.pingErr with
  | some e =>
    have h1 := openClient_err r w e hping
    have h2 := openClient_unanswered r w e hping
      (fun code hc => hreply code (by rw [hping, hc]))
    unfold RedisModel.Delete
    split
    · rename_i w1 err heq
      rw [heq] at h2
      simpa using h2
    · rename_i w1 client heq
      rw [heq] at h1
      simp at h1
  | none =>
    cases hdel : w.delErr <;>
      simp [RedisModel.Delete, openClient_ok r w hping, Client.Del, Client.Close, opened, hdel]

/-- When the ping is answered with an error reply, the connection it dialled
stays open in the pool of the client that `open` drops: every operation then
leaves one more connection behind. -/
theorem error_reply_leaves_connection (lib : Codec) (r : RedisModel) (w : World)
    (key redisType : GoString) (v : Value) (duration : Int) (code : Nat)
    (hping : w.pingErr = some (LibError.reply code)) :
    (RedisModel.Open r w).1.conns = w.conns + 1
      ∧ (RedisModel.Set lib r w key redisType v duration).1.conns = w.conns + 1
      ∧ (RedisModel.Get lib r w key redisType).1.conns = w.conns + 1
      ∧ (RedisModel.Delete r w key).1.conns = w.conns + 1 := by
  simp [RedisModel.Open, RedisModel.Set, RedisModel.Get, RedisModel.Delete, openClient, newClient,
    Client.Ping, hping]

/-- C10, the code at a failing input. `Open` against a reachable store returns
success and leaves one more connection open and one more client handle
unclosed than before: the client `open` created is dropped without `Close`.
On a failed ping the handle `open` created is dropped unclosed as well, here
under `Delete`. -/
theorem Open_leaves_connection :
    (RedisModel.Open cfg emptyWorld).2 = none
      ∧ (RedisModel.Open cfg emptyWorld).1.conns = emptyWorld.conns + 1
      ∧ (RedisModel.Open cfg emptyWorld).1.clients = emptyWorld.clients + 1
      ∧ (RedisModel.Open cfg emptyWorld).1.log
          = [Call.newClient (ascii "localhost:6379") [] 0, Call.ping]
      ∧ (RedisModel.Delete cfg downWorld (ascii "k")).1.clients = downWorld.clients + 1
      ∧ (RedisModel.Delete cfg downWorld (ascii "k")).1.log
          = [Call.newClient (ascii "localhost:6379") [] 0, Call.ping] := by
  decide

end Infra
